import Mathlib

/-
  Verification development for the claude-md-testing repository.

  The TypeScript sources are shallowly embedded below.  JavaScript numbers
  are modelled as rationals where fractional arithmetic occurs and as
  naturals for counts, lengths and timestamps.  JavaScript Map values are
  modelled as insertion-ordered association lists with Map.set replacement
  semantics.  Functions that read the clock take an explicit timestamp
  argument.  String primitives used by the sources (includes, startsWith,
  endsWith, slice, split, toLowerCase) are given structural definitions on
  the underlying character lists so that concrete instances evaluate.
-/

/-- Boolean test that the first character list is an initial segment of the
second; used to model the substring primitives of the source. -/
def isPrefOf : List Char → List Char → Bool
  | [], _ => true
  | _ :: _, [] => false
  | a :: as, b :: bs => a == b && isPrefOf as bs

/-- Index of the first position of the haystack at which the pattern starts,
if any.  Models the search underlying String.prototype.includes and the
first-occurrence behaviour of String.prototype.replace. -/
def firstMatchIdx (pat : List Char) : List Char → Option Nat
  | [] => if isPrefOf pat [] then some 0 else none
  | c :: rest =>
    if isPrefOf pat (c :: rest) then some 0
    else (firstMatchIdx pat rest).map (· + 1)

/-- Model of String.prototype.includes from the source. -/
def jsIncludes (s pat : String) : Bool :=
  (firstMatchIdx pat.data s.data).isSome

/-- Model of String.prototype.startsWith. -/
def strStartsWith (s pre : String) : Bool :=
  isPrefOf pre.data s.data

/-- Model of String.prototype.endsWith. -/
def strEndsWith (s suf : String) : Bool :=
  isPrefOf suf.data.reverse s.data.reverse

/-- Model of String.prototype.slice with a single start index. -/
def strSlice (s : String) (start : Nat) : String :=
  ⟨s.data.drop start⟩

/-- Split a character list at every character satisfying the predicate.
Empty pieces between consecutive separators are kept, as with splitting on
a single-character pattern. -/
def splitByAux (p : Char → Bool) (cur : List Char) : List Char → List (List Char)
  | [] => [cur.reverse]
  | c :: cs =>
    if p c then cur.reverse :: splitByAux p [] cs
    else splitByAux p (c :: cur) cs

/-- Split a string at every character satisfying the predicate. -/
def splitBy (p : Char → Bool) (s : String) : List String :=
  (splitByAux p [] s.data).map (fun l => ⟨l⟩)

/-- ASCII model of String.prototype.toLowerCase. -/
def jsToLower (s : String) : String :=
  ⟨s.data.map Char.toLower⟩

/-- The predicate on characters matched by the regular expression W used by
the keyword tokenizer of the correctness evaluator: anything that is not a
letter, a digit or an underscore. -/
def isNonWordChar (c : Char) : Bool :=
  !(c.isAlphanum || c == '_')

/-- JavaScript Map.prototype.get on an insertion-ordered association
list. -/
def jsMapGet {β : Type} (k : String) : List (String × β) → Option β
  | [] => none
  | p :: t => if p.1 == k then some p.2 else jsMapGet k t

/-- JavaScript Map.prototype.set on an insertion-ordered association list:
replace the value in place when the key is present, append otherwise. -/
def jsMapSet {β : Type} (k : String) (v : β) (m : List (String × β)) : List (String × β) :=
  if m.any (fun p => p.1 == k) then
    m.map (fun p => if p.1 == k then (p.1, v) else p)
  else m ++ [(k, v)]

/-- JavaScript Map.prototype.delete: the updated list together with the
boolean result of the call, true exactly when the key was present. -/
def jsMapDelete {β : Type} (k : String) (m : List (String × β)) : List (String × β) × Bool :=
  if m.any (fun p => p.1 == k) then
    (m.filter (fun p => !(p.1 == k)), true)
  else (m, false)

/-- JavaScript Set.prototype.add on an insertion-ordered list. -/
def jsSetAdd (l : List String) (x : String) : List String :=
  if l.contains x then l else l ++ [x]

/-- Stack step of the posix path normalizer of the node path module. -/
def resolveSegs (allowUp : Bool) (acc : List String) : List String → List String
  | [] => acc.reverse
  | seg :: rest =>
    if seg == ".." then
      match acc with
      | [] => resolveSegs allowUp (if allowUp then [".."] else []) rest
      | top :: tl =>
        if top == ".." then resolveSegs allowUp (if allowUp then seg :: acc else acc) rest
        else resolveSegs allowUp tl rest
    else resolveSegs allowUp (seg :: acc) rest

/-- Join path segments with slashes. -/
def joinSegs : List String → String
  | [] => ""
  | [x] => x
  | x :: y :: xs => x ++ "/" ++ joinSegs (y :: xs)

/-- Model of path.posix.normalize from the node path module: resolve dot and
dot-dot segments, collapse repeated separators, keep a trailing separator. -/
def posixNormalize (s : String) : String :=
  if s = "" then "."
  else
    let isAbs := strStartsWith s "/"
    let trailSep := strEndsWith s "/"
    let segs := (splitBy (fun c => c == '/') s).filter (fun seg => !(seg == "") && !(seg == "."))
    let body := joinSegs (resolveSegs (!isAbs) [] segs)
    if body = "" then
      if isAbs then "/" else if trailSep then "./" else "."
    else
      let body2 := if trailSep then body ++ "/" else body
      if isAbs then "/" ++ body2 else body2

/-- Model of path.posix.join for the two-argument use in the source. -/
def posixJoin (a b : String) : String :=
  let joined := if a = "" then b else if b = "" then a else a ++ "/" ++ b
  if joined = "" then "." else posixNormalize joined

/-
  Data model of src/types/index.ts.  Numbers are Nat for counts and
  timestamps and rationals for scores and model temperature.  Optional
  fields become Option.  The opaque parameters and result of a tool call
  are modelled by their canonical JSON serialization, an opaque string,
  which is exactly the form in which the source compares them.
-/

/-- Role of one transcript message (src/types/index.ts Message.role). -/
inductive Role
  | system
  | user
  | assistant
deriving DecidableEq

/-- One tool invocation (src/types/index.ts ToolCall).  The parameters
field holds the canonical JSON serialization of the invocation input,
matching how the source compares parameters via JSON.stringify. -/
structure ToolCall where
  toolName : String
  parameters : String
  result : String
  executionTimeMs : Nat
  error : Option String
deriving DecidableEq

/-- Token counts attached to one message. -/
structure TokenCounts where
  input : Nat
  output : Nat
  thinking : Option Nat
deriving DecidableEq

/-- One transcript turn (src/types/index.ts Message). -/
structure Message where
  role : Role
  content : String
  thinking : Option String
  toolCalls : Option (List ToolCall)
  timestamp : Nat
  tokens : Option TokenCounts
deriving DecidableEq

/-- Model configuration of a conversation. -/
structure ModelConfig where
  model : String
  temperature : ℚ
  maxTokens : Nat
deriving DecidableEq

/-- Transcript of one test (src/types/index.ts ConversationHistory). -/
structure ConversationHistory where
  messages : List Message
  totalDurationMs : Nat
  modelConfig : ModelConfig
deriving DecidableEq

/-- Kind of a sandbox file operation (src/types/index.ts FileOperation.type). -/
inductive FileOpType
  | read
  | write
  | delete
  | edit
deriving DecidableEq

/-- One sandbox operation log record (src/types/index.ts FileOperation). -/
structure FileOperation where
  type : FileOpType
  path : String
  content : Option String
  timestamp : Nat
  success : Bool
deriving DecidableEq

/-- One simulated command execution (src/types/index.ts CommandExecution). -/
structure CommandExecution where
  command : String
  output : String
  exitCode : Int
  timestamp : Nat
  durationMs : Nat
deriving DecidableEq

/-- One extracted error event (src/types/index.ts ErrorEvent). -/
structure ErrorEvent where
  type : String
  message : String
  stack : Option String
  timestamp : Nat
  recovered : Bool
deriving DecidableEq

/-- Raw behavioural metrics of one test (src/types/index.ts RawMetrics). -/
structure RawMetrics where
  allToolCalls : List ToolCall
  fileOperations : List FileOperation
  commandsExecuted : List CommandExecution
  errorsEncountered : List ErrorEvent
  retryAttempts : Nat
deriving DecidableEq

/-- The fixed mapping of the nine named metrics (src/types/index.ts
MetricScores); each value lies in the interval from 0 to 10. -/
structure MetricScores where
  correctness : ℚ
  speed : ℚ
  tokenEfficiency : ℚ
  documentation : ℚ
  codeQuality : ℚ
  security : ℚ
  instructionAdherence : ℚ
  consistency : ℚ
  errorRecovery : ℚ
deriving DecidableEq

/-- One test specification (src/types/index.ts Test). -/
structure Test where
  id : String
  prompt : String
  category : String
  expectedBehavior : Option String
  evaluationCriteria : Option (List (String × String))
  timeout : Option Nat
deriving DecidableEq

/-- The result of one executed test (src/types/index.ts TestResult). -/
structure TestResult where
  id : Option Nat
  testRunId : Nat
  testId : String
  prompt : String
  response : String
  tokensInput : Nat
  tokensOutput : Nat
  tokensThinking : Option Nat
  responseTimeMs : Nat
  scores : MetricScores
  conversation : ConversationHistory
  metricsRaw : RawMetrics
deriving DecidableEq

/-- One stored sandbox file (src/types/index.ts VirtualFile). -/
structure VirtualFile where
  path : String
  content : String
  createdAt : Nat
  modifiedAt : Nat
  permissions : String
deriving DecidableEq

/-
  Sandbox: src/utils/virtual-fs.ts.  The files Map becomes an
  insertion-ordered association list keyed by the normalized path, and
  every method that calls Date.now takes the current time explicitly.
-/

/-- State of one VirtualFileSystem instance (src/utils/virtual-fs.ts). -/
structure VirtualFileSystem where
  rootPath : String
  workingDirectory : String
  files : List (String × VirtualFile)
  operations : List FileOperation
deriving DecidableEq

/-- The constructor of VirtualFileSystem: the working directory starts at
the configured root path. -/
def VirtualFileSystem.init (rootPath : String) : VirtualFileSystem :=
  { rootPath := rootPath, workingDirectory := rootPath, files := [], operations := [] }

/-- normalizePath of VirtualFileSystem: a relative path is joined onto the
working directory, and the result is normalized; the normalized form is
the identity key of the files map. -/
def VirtualFileSystem.normalizePath (wd : String) (filePath : String) : String :=
  let p := if strStartsWith filePath "/" then filePath else posixJoin wd filePath
  posixNormalize p

/-- write of VirtualFileSystem: always succeeds, creates or overwrites the
entry under the normalized path, preserves a prior truthy creation time
(the source uses a falsy-or so a creation time of zero is replaced), and
appends a successful write record to the operation log. -/
def VirtualFileSystem.write (fs : VirtualFileSystem) (filePath content : String) (now : Nat) :
    VirtualFileSystem × (Bool × Nat) :=
  let n := VirtualFileSystem.normalizePath fs.workingDirectory filePath
  let createdAt :=
    match (jsMapGet n fs.files).map VirtualFile.createdAt with
    | some c => if c = 0 then now else c
    | none => now
  let file : VirtualFile :=
    { path := n, content := content, createdAt := createdAt, modifiedAt := now,
      permissions := "rw-r--r--" }
  let op : FileOperation :=
    { type := FileOpType.write, path := n, content := some content, timestamp := now,
      success := true }
  ({ fs with files := jsMapSet n file fs.files, operations := fs.operations ++ [op] },
   (true, content.length))

/-- read of VirtualFileSystem: looks the normalized path up, logs the
access with its success flag, returns the content or the null marker. -/
def VirtualFileSystem.read (fs : VirtualFileSystem) (filePath : String) (now : Nat) :
    VirtualFileSystem × Option String :=
  let n := VirtualFileSystem.normalizePath fs.workingDirectory filePath
  let file := jsMapGet n fs.files
  let op : FileOperation :=
    { type := FileOpType.read, path := n, content := none, timestamp := now,
      success := file.isSome }
  ({ fs with operations := fs.operations ++ [op] }, file.map VirtualFile.content)

/-- GetSubstitution of String.prototype.replace, specialized to a string
search value: no capture groups exist and named captures are undefined.
A dollar followed by a second dollar yields one dollar; followed by an
ampersand yields the matched text; followed by the character of code 96
(the backquote) yields the portion of the subject before the match;
followed by the character of code 39 (the straight quote) yields the
portion after the match.  Every other dollar, including the digit and
angle-bracket forms, which with zero captures and undefined named
captures the specification leaves as literal text, stays in place; the
character after such a dollar is not itself a dollar in that branch, so
it is likewise emitted literally and the scan resumes beyond it, which
produces the same string as resuming after the consumed literal form. -/
def getSubstitution (matched preceding following : List Char) : List Char → List Char
  | [] => []
  | c :: rest =>
    if c = '$' then
      match rest with
      | [] => ['$']
      | d :: rest2 =>
        if d = '$' then '$' :: getSubstitution matched preceding following rest2
        else if d = '&' then matched ++ getSubstitution matched preceding following rest2
        else if d = Char.ofNat 96 then preceding ++ getSubstitution matched preceding following rest2
        else if d = Char.ofNat 39 then following ++ getSubstitution matched preceding following rest2
        else '$' :: d :: getSubstitution matched preceding following rest2
    else c :: getSubstitution matched preceding following rest

/-- edit of VirtualFileSystem: fails early with a not-found message when
the normalized path has no entry and with a fragment message when the old
content does not occur; otherwise replaces the first occurrence by the
replacement text run through GetSubstitution, as String.prototype.replace
does (the matched text is the old content itself, since the search value
is a plain string), updates the modification time and logs a successful
edit.  The failure paths do not change the state and log nothing, exactly
as in the source. -/
def VirtualFileSystem.edit (fs : VirtualFileSystem) (filePath oldContent newContent : String)
    (now : Nat) : VirtualFileSystem × (Bool × String) :=
  let n := VirtualFileSystem.normalizePath fs.workingDirectory filePath
  match jsMapGet n fs.files with
  | none => (fs, (false, "File not found"))
  | some file =>
    match firstMatchIdx oldContent.data file.content.data with
    | none => (fs, (false, "Old content not found in file"))
    | some i =>
      let updated : String :=
        ⟨file.content.data.take i ++
          getSubstitution oldContent.data (file.content.data.take i)
            (file.content.data.drop (i + oldContent.length)) newContent.data ++
          file.content.data.drop (i + oldContent.length)⟩
      let file2 := { file with content := updated, modifiedAt := now }
      let op : FileOperation :=
        { type := FileOpType.edit, path := n, content := some updated, timestamp := now,
          success := true }
      ({ fs with files := jsMapSet n file2 fs.files, operations := fs.operations ++ [op] },
       (true, "File edited successfully"))

/-- delete of VirtualFileSystem: removes the entry when present and
returns the boolean result of the underlying Map delete, which is false
when the normalized path had no entry; the operation log records that
same flag. -/
def VirtualFileSystem.delete (fs : VirtualFileSystem) (filePath : String) (now : Nat) :
    VirtualFileSystem × Bool :=
  let n := VirtualFileSystem.normalizePath fs.workingDirectory filePath
  let r := jsMapDelete n fs.files
  let op : FileOperation :=
    { type := FileOpType.delete, path := n, content := none, timestamp := now,
      success := r.2 }
  ({ fs with files := r.1, operations := fs.operations ++ [op] }, r.2)

/-- exists of VirtualFileSystem. -/
def VirtualFileSystem.exists (fs : VirtualFileSystem) (filePath : String) : Bool :=
  (jsMapGet (VirtualFileSystem.normalizePath fs.workingDirectory filePath) fs.files).isSome

/-- listDirectory of VirtualFileSystem: collects, over the stored paths in
insertion order, the first slash-separated piece of the stored path after
dropping one character beyond the normalized directory prefix, skipping
empty pieces, with set semantics. -/
def VirtualFileSystem.listDirectory (fs : VirtualFileSystem) (dirPath : String) : List String :=
  let nd := VirtualFileSystem.normalizePath fs.workingDirectory dirPath
  fs.files.foldl
    (fun entries p =>
      if strStartsWith p.1 nd then
        let rel := strSlice p.1 (nd.length + 1)
        let parts := splitBy (fun c => c == '/') rel
        match parts.head? with
        | some h => if h ≠ "" then jsSetAdd entries h else entries
        | none => entries
      else entries)
    []

/-- getFileOperations of VirtualFileSystem (the copy made by the source is
irrelevant in a pure model). -/
def VirtualFileSystem.getFileOperations (fs : VirtualFileSystem) : List FileOperation :=
  fs.operations

/-- reset of VirtualFileSystem: clears all entries and the operation log
and restores the working directory to the configured root. -/
def VirtualFileSystem.reset (fs : VirtualFileSystem) : VirtualFileSystem :=
  { fs with files := [], operations := [], workingDirectory := fs.rootPath }

/-
  Evaluator pipeline: src/evaluators.  Each evaluator is a pure scoring
  function; the registry entry wraps it in Except so that a throwing unit
  can be expressed, as handled by EvaluatorManager.evaluateAll.
-/

/-- normalizeScore of BaseEvaluator with its default bounds of 0 and 10,
the only bounds any call site uses: clamp the value into the interval. -/
def normalizeScore (value : ℚ) : ℚ :=
  min 10 (max 0 value)

/-- extractKeywords of CorrectnessEvaluator: lower-case the text, split on
runs of non-word characters and keep tokens longer than three characters.
Splitting here is per character, which differs from the source regular
expression only by empty pieces that the length filter removes anyway. -/
def extractKeywords (text : String) : List String :=
  (splitBy isNonWordChar (jsToLower text)).filter (fun w => w.length > 3)

/-- calculateKeywordMatch of CorrectnessEvaluator: fraction of expected
keywords present among the actual ones, or 1 when nothing is expected. -/
def calculateKeywordMatch (expected actual : List String) : ℚ :=
  if expected.length = 0 then 1
  else ((expected.filter (fun k => actual.contains k)).length : ℚ) / (expected.length : ℚ)

/-- evaluate of CorrectnessEvaluator: start at 10, subtract 2 per
unrecovered and one half per recovered error, one half per retry, force 0
on an empty response or one carrying the failure sentinel, cap by the
keyword match rate when an expected behaviour is declared, clamp. -/
def correctnessEvaluate (test : Test) (result : TestResult)
    (_conv : ConversationHistory) (metrics : RawMetrics) : ℚ :=
  let unrecovered := metrics.errorsEncountered.filter (fun e => !e.recovered)
  let score1 : ℚ :=
    if metrics.errorsEncountered.length > 0 then
      10 - (unrecovered.length : ℚ) * 2
        - ((metrics.errorsEncountered.length : ℚ) - (unrecovered.length : ℚ)) * (1 / 2)
    else 10
  let score2 : ℚ :=
    if metrics.retryAttempts > 0 then score1 - (metrics.retryAttempts : ℚ) * (1 / 2)
    else score1
  let score3 : ℚ :=
    if result.response = "" ∨ jsIncludes result.response "Test failed:" = true then 0
    else score2
  let score4 : ℚ :=
    match test.expectedBehavior with
    | none => score3
    | some eb =>
      let keywords := extractKeywords eb
      let responseKeywords := extractKeywords result.response
      min score3 (calculateKeywordMatch keywords responseKeywords * 10)
  normalizeScore score4

/-- evaluate of SpeedEvaluator: a step function of the response time over
the fixed benchmarks, with one point lost per further ten seconds beyond
twenty, clamped. -/
def speedEvaluate (_test : Test) (result : TestResult)
    (_conv : ConversationHistory) (_metrics : RawMetrics) : ℚ :=
  let rt := result.responseTimeMs
  if rt ≤ 2000 then 10
  else if rt ≤ 5000 then 8
  else if rt ≤ 10000 then 6
  else if rt ≤ 20000 then 4
  else normalizeScore (3 - (((rt - 20000) / 10000 : Nat) : ℚ))

/-- Signature string of one tool call as built by
countDuplicateToolCalls: the tool name and the serialized parameters
joined by a colon. -/
def toolCallSignature (c : ToolCall) : String :=
  c.toolName ++ ":" ++ c.parameters

/-- One step of countDuplicateToolCalls of TokenEfficiencyEvaluator: bump
the count stored under the signature and count the occurrence as a
duplicate when it is not the first. -/
def dupStep (acc : List (String × Nat) × Nat) (c : ToolCall) : List (String × Nat) × Nat :=
  let sig := toolCallSignature c
  let count := ((jsMapGet sig acc.1).getD 0) + 1
  (jsMapSet sig count acc.1, if count > 1 then acc.2 + 1 else acc.2)

/-- countDuplicateToolCalls of TokenEfficiencyEvaluator: walk every tool
call of every message, keyed by signature, counting each occurrence past
the first. -/
def countDuplicateToolCalls (conversation : ConversationHistory) : Nat :=
  (conversation.messages.foldl
    (fun acc msg => (msg.toolCalls.getD []).foldl dupStep acc) ([], 0)).2

/-- evaluate of TokenEfficiencyEvaluator: the mean of a ratio band, a
total-volume band and a duplicate-call penalty, clamped.  The source
divides output by input as floating point; with zero input the ratio is
NaN when the output is also zero, failing every band comparison and
keeping 10, and positive infinity otherwise, landing in the top band with
its floor capped at 3, hence 2.  Both cases are spelled out here. -/
def tokenEfficiencyEvaluate (_test : Test) (result : TestResult)
    (conv : ConversationHistory) (_metrics : RawMetrics) : ℚ :=
  let inputTokens := result.tokensInput
  let outputTokens := result.tokensOutput
  let thinkingTokens := result.tokensThinking.getD 0
  let totalTokens := inputTokens + outputTokens + thinkingTokens
  let rBand : ℚ :=
    if inputTokens = 0 then (if outputTokens = 0 then 10 else 2)
    else
      let q : ℚ := (outputTokens : ℚ) / (inputTokens : ℚ)
      if q < 1 / 2 then 6
      else if q > 5 then 5 - ((min 3 (((q - 5) / 2).floor) : ℤ) : ℚ)
      else if q > 3 then 8
      else 10
  let tBand : ℚ :=
    if totalTokens > 10000 then 5
    else if totalTokens > 5000 then 7
    else if totalTokens > 3000 then 9
    else 10
  let duplicateTools := countDuplicateToolCalls conv
  let wBand : ℚ := if duplicateTools > 0 then 10 - (duplicateTools : ℚ) * 2 else 10
  normalizeScore ((rBand + tBand + wBand) / 3)

/-- countEditsWithoutRead of CodeQualityEvaluator: edits on a path with no
earlier read of that path in the operation list. -/
def countEditsWithoutRead (fileOps : List FileOperation) : Nat :=
  (fileOps.foldl
    (fun (acc : List String × Nat) op =>
      if op.type = FileOpType.read then (acc.1 ++ [op.path], acc.2)
      else if op.type = FileOpType.edit ∨ op.type = FileOpType.write then
        (if ¬ acc.1.contains op.path ∧ op.type = FileOpType.edit then (acc.1, acc.2 + 1)
         else (acc.1, acc.2))
      else (acc.1, acc.2))
    ([], 0)).2

/-- checkErrorHandling of CodeQualityEvaluator: some assistant message
mentions one of the fixed error-handling keywords. -/
def checkErrorHandling (conversation : ConversationHistory) : Bool :=
  let keywords := ["try", "catch", "error", "exception", "handle", "validate"]
  conversation.messages.any (fun msg =>
    msg.role = Role.assistant ∧
    keywords.any (fun keyword => jsIncludes (jsToLower msg.content) keyword))

/-- checkFileStructure of CodeQualityEvaluator: some operated path has
directory structure, judged by slash count. -/
def checkFileStructure (fileOps : List FileOperation) : Bool :=
  (fileOps.map FileOperation.path).any (fun path =>
    jsIncludes path "/" ∧ (splitBy (fun c => c == '/') path).length > 2)

/-- Consistent and total adjacent pairs of the sorted operation list, as
counted by checkOperationConsistency. -/
def consistencyPairs : List FileOperation → Nat × Nat
  | [] => (0, 0)
  | [_] => (0, 0)
  | a :: b :: rest =>
    let p := consistencyPairs (b :: rest)
    ((if b.path = a.path ∨ ((b.timestamp : ℤ) - (a.timestamp : ℤ)).natAbs < 5000
      then p.1 + 1 else p.1),
     p.2 + 1)

/-- checkOperationConsistency of CodeQualityEvaluator: fraction of
adjacent pairs of the timestamp-sorted operations that act on the same
path or lie within five seconds of each other; 1 for fewer than two
operations.  The stable comparator sort of the source is a stable
insertion sort here. -/
def checkOperationConsistency (metrics : RawMetrics) : ℚ :=
  let ops := metrics.fileOperations.insertionSort (fun a b => a.timestamp ≤ b.timestamp)
  if ops.length < 2 then 1
  else
    let p := consistencyPairs ops
    if p.2 > 0 then (p.1 : ℚ) / (p.2 : ℚ) else 1

/-- evaluate of CodeQualityEvaluator: a baseline of 8 with additive and
subtractive heuristic adjustments, clamped. -/
def codeQualityEvaluate (_test : Test) (_result : TestResult)
    (conv : ConversationHistory) (metrics : RawMetrics) : ℚ :=
  let fileOps := metrics.fileOperations
  let editsWithoutRead := countEditsWithoutRead fileOps
  let score1 : ℚ :=
    if editsWithoutRead > 0 then 8 - (editsWithoutRead : ℚ) * (3 / 2) else 8
  let score2 : ℚ :=
    if ¬ checkErrorHandling conv ∧ metrics.errorsEncountered.length > 0 then score1 - 2
    else score1
  let score3 : ℚ := if checkFileStructure fileOps then score2 + 1 else score2
  let consistencyMeasure := checkOperationConsistency metrics
  normalizeScore (score3 + consistencyMeasure * 2 - 1)

/-- evaluate of the PlaceholderEvaluator used for the five remaining
metrics: a baseline of 7 adjusted by error presence and response length,
clamped. -/
def placeholderEvaluate (_test : Test) (result : TestResult)
    (_conv : ConversationHistory) (metrics : RawMetrics) : ℚ :=
  let score1 : ℚ := if metrics.errorsEncountered.length > 0 then 7 - 1 else 7
  let score2 : ℚ :=
    if result.response.length < 50 then score1 - 2
    else if result.response.length > 500 then score1 + 1
    else score1
  normalizeScore score2

/-- One registered scoring unit (BaseEvaluator): a metric name, a
description and the evaluate function.  The Except result expresses that
a unit may throw, which evaluateAll isolates. -/
structure Evaluator where
  metricName : String
  description : String
  evaluate : Test → TestResult → ConversationHistory → RawMetrics → Except String ℚ

/-- The CorrectnessEvaluator unit; its pure scoring function never throws. -/
def correctnessEvaluator : Evaluator :=
  { metricName := "correctness",
    description := "Evaluates if the output correctly solves the problem",
    evaluate := fun t r c m => Except.ok (correctnessEvaluate t r c m) }

/-- The SpeedEvaluator unit. -/
def speedEvaluator : Evaluator :=
  { metricName := "speed",
    description := "Evaluates response time and execution efficiency",
    evaluate := fun t r c m => Except.ok (speedEvaluate t r c m) }

/-- The TokenEfficiencyEvaluator unit. -/
def tokenEfficiencyEvaluator : Evaluator :=
  { metricName := "tokenEfficiency",
    description := "Evaluates token usage optimization",
    evaluate := fun t r c m => Except.ok (tokenEfficiencyEvaluate t r c m) }

/-- The CodeQualityEvaluator unit. -/
def codeQualityEvaluator : Evaluator :=
  { metricName := "codeQuality",
    description := "Evaluates code structure, readability, and best practices",
    evaluate := fun t r c m => Except.ok (codeQualityEvaluate t r c m) }

/-- A PlaceholderEvaluator unit under the given name and description. -/
def placeholderEvaluator (name description : String) : Evaluator :=
  { metricName := name, description := description,
    evaluate := fun t r c m => Except.ok (placeholderEvaluate t r c m) }

/-- registerEvaluator of EvaluatorManager: store the unit in the registry
map under its metric name, replacing any prior unit of that name. -/
def registerEvaluator (registry : List (String × Evaluator)) (ev : Evaluator) :
    List (String × Evaluator) :=
  jsMapSet ev.metricName ev registry

/-- registerDefaultEvaluators of EvaluatorManager: the four concrete units
followed by the five placeholders, registered in source order. -/
def defaultEvaluators : List (String × Evaluator) :=
  [correctnessEvaluator, speedEvaluator, tokenEfficiencyEvaluator, codeQualityEvaluator,
   placeholderEvaluator "documentation" "Quality of explanations and comments",
   placeholderEvaluator "security" "Security best practices",
   placeholderEvaluator "instructionAdherence" "Following CLAUDE.md instructions",
   placeholderEvaluator "consistency" "Consistent behavior across similar prompts",
   placeholderEvaluator "errorRecovery" "Ability to handle and recover from errors"
  ].foldl registerEvaluator []

/-- evaluateAll of EvaluatorManager: one entry per registered unit in
registry order, holding the score the unit computed on the test and
result, or the fixed neutral default 5 when the unit threw. -/
def evaluateAll (registry : List (String × Evaluator)) (test : Test) (result : TestResult) :
    List (String × ℚ) :=
  registry.map (fun p =>
    (p.1,
     match p.2.evaluate test result result.conversation result.metricsRaw with
     | Except.ok v => v
     | Except.error _ => 5))

/-
  Test Runner: src/runners/test-runner.ts.  The execution of a single test
  is an external effect, passed in as a function that either produces a
  result or throws with a message.
-/

/-- One step of countRetries of TestRunner: a retry is counted when the
call has the same tool name and the same serialized parameters as the
immediately preceding call, the predecessor being carried across message
boundaries. -/
def retryStep (acc : Nat × Option ToolCall) (call : ToolCall) : Nat × Option ToolCall :=
  match acc with
  | (n, some last) =>
    if last.toolName = call.toolName ∧ last.parameters = call.parameters then
      (n + 1, some call)
    else (n, some call)
  | (n, none) => (n, some call)

/-- countRetries of TestRunner: fold the retry step over every tool call
of every message of the conversation. -/
def countRetries (conversation : ConversationHistory) : Nat :=
  (conversation.messages.foldl
    (fun acc msg => (msg.toolCalls.getD []).foldl retryStep acc) (0, none)).1

/-- extractErrors of TestRunner: every tool call carrying an error becomes
an unrecovered tool_error event stamped with its message time. -/
def extractErrors (conversation : ConversationHistory) : List ErrorEvent :=
  conversation.messages.foldl
    (fun errors msg =>
      errors ++ (msg.toolCalls.getD []).foldl
        (fun inner call =>
          match call.error with
          | some e =>
            inner ++ [{ type := "tool_error", message := e, stack := none,
                        timestamp := msg.timestamp, recovered := false }]
          | none => inner)
        [])
    []

/-- createFailedResult of TestRunner: the synthesized result for a test
whose execution threw.  The configuration of this runner declares no
model fields, so the model configuration falls back to empty and zero
values.  The thrown error is modelled by its message. -/
def createFailedResult (test : Test) (testRunId : Nat) (errorMessage : String) (now : Nat) :
    TestResult :=
  { id := none,
    testRunId := testRunId,
    testId := test.id,
    prompt := test.prompt,
    response := "Test failed: " ++ errorMessage,
    tokensInput := 0,
    tokensOutput := 0,
    tokensThinking := none,
    responseTimeMs := 0,
    scores :=
      { correctness := 0, speed := 0, tokenEfficiency := 0, documentation := 0,
        codeQuality := 0, security := 0, instructionAdherence := 0, consistency := 0,
        errorRecovery := 0 },
    conversation :=
      { messages := [],
        totalDurationMs := 0,
        modelConfig := { model := "", temperature := 0, maxTokens := 0 } },
    metricsRaw :=
      { allToolCalls := [],
        fileOperations := [],
        commandsExecuted := [],
        errorsEncountered :=
          [{ type := "test_failure", message := errorMessage, stack := none,
             timestamp := now, recovered := false }],
        retryAttempts := 0 } }

/-- The per-test body of runTestSuite of TestRunner: push the result of a
successful execution, or the synthesized failed result when the execution
threw. -/
def runSuiteStep (executeTest : Test → Except String TestResult) (testRunId : Nat) (now : Nat)
    (test : Test) : TestResult :=
  match executeTest test with
  | Except.ok r => r
  | Except.error e => createFailedResult test testRunId e now

/-- The results list built by runTestSuite of TestRunner: every test of
the suite is processed in order and contributes exactly one entry. -/
def runTestSuiteResults (executeTest : Test → Except String TestResult)
    (tests : List Test) (testRunId : Nat) (now : Nat) : List TestResult :=
  tests.map (runSuiteStep executeTest testRunId now)

/-
  Process-based execution: src/execution/claude-code-runner.ts.  The
  subprocess interaction is external; what is embedded is the shape of the
  execution result each exit path constructs and the pure construction of
  metrics and the test result from it.
-/

/-- Outcome of runClaudeCode of ClaudeCodeRunner. -/
structure ExecutionResult where
  output : String
  exitCode : Nat
  duration : Nat
  error : Option String
deriving DecidableEq

/-- The execution result built by the timeout branch of runClaudeCode:
the output gathered so far with a timeout marker appended, the timeout
exit code 124, the elapsed wall-clock time at which the timer fired, and
a fixed error message. -/
def timeoutExecutionResult (outputSoFar : String) (elapsed : Nat) : ExecutionResult :=
  { output := outputSoFar ++ "\n[TIMEOUT]",
    exitCode := 124,
    duration := elapsed,
    error := some "Process timed out" }

/-- estimateTokens of ClaudeCodeRunner: the ceiling of a quarter of the
text length. -/
def estimateTokens (text : String) : Nat :=
  (text.length + 3) / 4

/-- collectMetrics of ClaudeCodeRunner: every workspace file other than
the instruction file counts as one successful write, an execution error
event is recorded when the execution carried an error or exited
non-zero, and the tool-call list and retry count are fixed constants
because the subprocess exposes neither. -/
def collectMetrics (workspaceFiles : List String) (executionResult : ExecutionResult)
    (now : Nat) : RawMetrics :=
  let fileOperations :=
    (workspaceFiles.filter (fun f => !(strEndsWith f "CLAUDE.md"))).map
      (fun f => { type := FileOpType.write, path := f, content := none, timestamp := now,
                  success := true : FileOperation })
  let errorsEncountered :=
    if executionResult.error.isSome ∨ executionResult.exitCode ≠ 0 then
      [{ type := "execution_error",
         message := executionResult.error.getD "Process exited with non-zero code",
         stack := none, timestamp := now, recovered := false : ErrorEvent }]
    else []
  { allToolCalls := [],
    fileOperations := fileOperations,
    commandsExecuted := [],
    errorsEncountered := errorsEncountered,
    retryAttempts := 0 }

/-- The pure construction of the test result by executeTest of
ClaudeCodeRunner from the execution outcome: hard-coded placeholder
scores apart from two coarse branches, estimated token counts, and a
two-message conversation. -/
def executeTestResult (test : Test) (testRunId : Nat) (claudeMdContent : String)
    (startTime : Nat) (executionResult : ExecutionResult) (workspaceFiles : List String)
    (now : Nat) : TestResult :=
  let rawMetrics := collectMetrics workspaceFiles executionResult now
  let scores : MetricScores :=
    { correctness := 7,
      speed := if executionResult.duration < 30000 then 9 else 6,
      tokenEfficiency := 7,
      documentation := 7,
      codeQuality := 7,
      security := 7,
      instructionAdherence := 7,
      consistency := 7,
      errorRecovery := if executionResult.exitCode = 0 then 8 else 4 }
  { id := none,
    testRunId := testRunId,
    testId := test.id,
    prompt := test.prompt,
    response := executionResult.output,
    tokensInput := estimateTokens (test.prompt ++ claudeMdContent),
    tokensOutput := estimateTokens executionResult.output,
    tokensThinking := none,
    responseTimeMs := executionResult.duration,
    scores := scores,
    conversation :=
      { messages :=
          [{ role := Role.user, content := test.prompt, thinking := none, toolCalls := none,
             timestamp := startTime,
             tokens := some { input := estimateTokens test.prompt, output := 0, thinking := none } },
           { role := Role.assistant, content := executionResult.output, thinking := none,
             toolCalls := none, timestamp := startTime + executionResult.duration,
             tokens := some { input := 0, output := estimateTokens executionResult.output,
                              thinking := none } }],
        totalDurationMs := executionResult.duration,
        modelConfig := { model := "claude-code", temperature := 0, maxTokens := 0 } },
    metricsRaw := rawMetrics }

/-
  Specification-side counting notions for the retry and duplicate claims,
  to be compared with the source definitions above.
-/

/-- Specification notion of the retry count: the number of positions of a
signature list whose entry equals the immediately preceding one. -/
def specAdjacentRepeats : List (String × String) → Nat
  | [] => 0
  | [_] => 0
  | a :: b :: rest => (if a = b then 1 else 0) + specAdjacentRepeats (b :: rest)

/-- Specification notion of the duplicate count: the number of entries of
a signature list that already occurred earlier, counting every occurrence
beyond the first per signature, adjacent or not. -/
def specRepeatsFrom (seen : List String) : List String → Nat
  | [] => 0
  | s :: rest => (if s ∈ seen then 1 else 0) + specRepeatsFrom (s :: seen) rest

/-- The pair signature of a tool call: tool name with serialized
parameters. -/
def sigPair (c : ToolCall) : String × String :=
  (c.toolName, c.parameters)

/-- All tool calls of a conversation in transcript order, across message
boundaries. -/
def allToolCallsOf (conversation : ConversationHistory) : List ToolCall :=
  (conversation.messages.map (fun m => m.toolCalls.getD [])).flatten

/-
  Concrete fixtures and auxiliary predicates used by the theorems below.
-/

/-- The pattern occurs in the character list at position i. -/
def occursAt (pat s : List Char) (i : Nat) : Prop :=
  (s.drop i).take pat.length = pat

instance (pat s : List Char) (i : Nat) : Decidable (occursAt pat s i) := by
  unfold occursAt; infer_instance

/-- A minimal concrete test used to instantiate theorems. -/
def sampleTest : Test :=
  { id := "t1", prompt := "write a file", category := "general", expectedBehavior := none,
    evaluationCriteria := none, timeout := some 1000 }

/-- A minimal concrete conversation. -/
def sampleConversation : ConversationHistory :=
  { messages := [], totalDurationMs := 0,
    modelConfig := { model := "", temperature := 0, maxTokens := 0 } }

/-- Minimal concrete raw metrics. -/
def sampleMetrics : RawMetrics :=
  { allToolCalls := [], fileOperations := [], commandsExecuted := [], errorsEncountered := [],
    retryAttempts := 0 }

/-- A minimal concrete test result. -/
def sampleResult : TestResult :=
  { id := none, testRunId := 1, testId := "t1", prompt := "write a file", response := "done",
    tokensInput := 10, tokensOutput := 10, tokensThinking := none, responseTimeMs := 100,
    scores := ⟨0, 0, 0, 0, 0, 0, 0, 0, 0⟩, conversation := sampleConversation,
    metricsRaw := sampleMetrics }

/-- Sandbox fixture holding one file for the edit witness. -/
def editFixture : VirtualFileSystem :=
  (VirtualFileSystem.write (VirtualFileSystem.init "/workspace") "/a.txt" "hello world" 1).1

/-- Tool call fixture A. -/
def callA : ToolCall :=
  { toolName := "file_read", parameters := "pathA", result := "", executionTimeMs := 0,
    error := none }

/-- Tool call fixture B. -/
def callB : ToolCall :=
  { toolName := "file_write", parameters := "pathB", result := "", executionTimeMs := 0,
    error := none }

/-- An assistant message carrying the given tool calls. -/
def msgWith (calls : List ToolCall) : Message :=
  { role := Role.assistant, content := "", thinking := none, toolCalls := some calls,
    timestamp := 0, tokens := none }

/-- A conversation with an identical but non-adjacent repeated call. -/
def nonAdjacentConv : ConversationHistory :=
  { messages := [msgWith [callA, callB, callA]], totalDurationMs := 0,
    modelConfig := { model := "", temperature := 0, maxTokens := 0 } }

/-- A conversation whose identical adjacent calls sit in different
messages. -/
def crossBoundaryConv : ConversationHistory :=
  { messages := [msgWith [callA], msgWith [callA]], totalDurationMs := 0,
    modelConfig := { model := "", temperature := 0, maxTokens := 0 } }

/-- A unit that always throws, used to exercise the isolation branch. -/
def failingEvaluator : Evaluator :=
  { metricName := "boom", description := "always throws",
    evaluate := fun _ _ _ _ => Except.error "fail" }

/-
  Theorems.
-/

theorem jsMapGet_map_replace_self {β : Type} (k : String) (v : β) (m : List (String × β))
    (h : m.any (fun p => p.1 == k) = true) :
    jsMapGet k (m.map (fun p => if p.1 == k then (p.1, v) else p)) = some v := by
  induction m with
  | nil => simp at h
  | cons p t ih =>
    simp only [List.any_cons, Bool.or_eq_true, beq_iff_eq] at h ih ⊢
    by_cases hp : p.1 = k
    · simp [jsMapGet, hp]
    · simp only [hp, false_or] at h
      simp [jsMapGet, hp, ih h]

theorem jsMapGet_map_replace_ne {β : Type} (k k' : String) (v : β) (m : List (String × β))
    (h : k' ≠ k) :
    jsMapGet k' (m.map (fun p => if p.1 == k then (p.1, v) else p)) = jsMapGet k' m := by
  induction m with
  | nil => simp [jsMapGet]
  | cons p t ih =>
    simp only [beq_iff_eq] at ih ⊢
    by_cases hp : p.1 = k
    · have hp' : p.1 ≠ k' := fun hk => h (hk ▸ hp ▸ rfl)
      simp [jsMapGet, hp, hp', Ne.symm h, ih]
    · by_cases hk : p.1 = k'
      · simp [jsMapGet, hp, hk, h]
      · simp [jsMapGet, hp, hk, ih]

theorem jsMapGet_append_single_self {β : Type} (k : String) (v : β) (m : List (String × β))
    (h : m.any (fun p => p.1 == k) = false) :
    jsMapGet k (m ++ [(k, v)]) = some v := by
  induction m with
  | nil => simp [jsMapGet]
  | cons p t ih =>
    simp only [List.any_cons, Bool.or_eq_false_iff, beq_eq_false_iff_ne] at h ih
    simp only [List.cons_append, jsMapGet, beq_iff_eq]
    simp [h.1, ih h.2]

theorem jsMapGet_append_single_ne {β : Type} (k k' : String) (v : β) (m : List (String × β))
    (h : k' ≠ k) :
    jsMapGet k' (m ++ [(k, v)]) = jsMapGet k' m := by
  induction m with
  | nil =>
    have : k ≠ k' := fun hk => h (hk ▸ rfl)
    simp [jsMapGet, this]
  | cons p t ih =>
    by_cases hk : p.1 = k'
    · simp [jsMapGet, hk]
    · simp [jsMapGet, hk, ih]

theorem jsMapGet_set_self {β : Type} (k : String) (v : β) (m : List (String × β)) :
    jsMapGet k (jsMapSet k v m) = some v := by
  unfold jsMapSet
  by_cases h : m.any (fun p => p.1 == k) = true
  · simp only [h, if_pos]
    exact jsMapGet_map_replace_self k v m h
  · simp only [h, if_neg]
    exact jsMapGet_append_single_self k v m (Bool.eq_false_iff.mpr h)

theorem jsMapGet_set_ne {β : Type} (k k' : String) (v : β) (m : List (String × β))
    (h : k' ≠ k) : jsMapGet k' (jsMapSet k v m) = jsMapGet k' m := by
  unfold jsMapSet
  by_cases hc : m.any (fun p => p.1 == k) = true
  · simp only [hc, if_pos]
    exact jsMapGet_map_replace_ne k k' v m h
  · simp only [hc, if_neg]
    exact jsMapGet_append_single_ne k k' v m h

theorem any_key_eq_isSome {β : Type} (k : String) (m : List (String × β)) :
    m.any (fun p => p.1 == k) = (jsMapGet k m).isSome := by
  induction m with
  | nil => simp [jsMapGet]
  | cons p t ih =>
    by_cases hp : p.1 = k <;> simp [jsMapGet, hp, ih]

theorem isPrefOf_iff (pat s : List Char) :
    isPrefOf pat s = true ↔ s.take pat.length = pat := by
  induction pat generalizing s with
  | nil => simp [isPrefOf]
  | cons a as ih =>
    cases s with
    | nil => simp [isPrefOf]
    | cons b bs =>
      simp only [isPrefOf, Bool.and_eq_true, beq_iff_eq, List.length_cons, List.take_succ_cons,
        List.cons.injEq, ih]
      tauto

theorem firstMatchIdx_some_occurs (pat s : List Char) (i : Nat)
    (h : firstMatchIdx pat s = some i) : occursAt pat s i := by
  induction s generalizing i with
  | nil =>
    unfold firstMatchIdx at h
    split at h
    · rename_i hp
      cases h
      exact (isPrefOf_iff pat []).mp hp
    · cases h
  | cons c rest ih =>
    unfold firstMatchIdx at h
    split at h
    · rename_i hp
      cases h
      exact (isPrefOf_iff pat (c :: rest)).mp hp
    · rename_i hp
      simp only [Option.map_eq_some'] at h
      obtain ⟨j, hj, rfl⟩ := h
      have := ih j hj
      unfold occursAt at this ⊢
      simpa using this

theorem firstMatchIdx_some_least (pat s : List Char) (i : Nat)
    (h : firstMatchIdx pat s = some i) : ∀ j, j < i → ¬ occursAt pat s j := by
  induction s generalizing i with
  | nil =>
    unfold firstMatchIdx at h
    split at h
    · cases h
      omega
    · cases h
  | cons c rest ih =>
    unfold firstMatchIdx at h
    split at h
    · cases h
      omega
    · rename_i hp
      simp only [Option.map_eq_some'] at h
      obtain ⟨j0, hj0, rfl⟩ := h
      intro j hj
      cases j with
      | zero =>
        intro hocc
        exact hp ((isPrefOf_iff pat (c :: rest)).mpr (by simpa [occursAt] using hocc))
      | succ j1 =>
        intro hocc
        exact ih j0 hj0 j1 (by omega) (by simpa [occursAt] using hocc)

theorem firstMatchIdx_none_not (pat s : List Char)
    (h : firstMatchIdx pat s = none) : ∀ j, ¬ occursAt pat s j := by
  induction s with
  | nil =>
    unfold firstMatchIdx at h
    split at h
    · cases h
    · rename_i hp
      intro j hocc
      simp only [occursAt, List.drop_nil, List.take_nil] at hocc
      exact hp ((isPrefOf_iff pat []).mpr (by simp [← hocc]))
  | cons c rest ih =>
    unfold firstMatchIdx at h
    split at h
    · cases h
    · rename_i hp
      simp only [Option.map_eq_none'] at h
      intro j
      cases j with
      | zero =>
        intro hocc
        exact hp ((isPrefOf_iff pat (c :: rest)).mpr (by simpa [occursAt] using hocc))
      | succ j1 =>
        intro hocc
        exact ih h j1 (by simpa [occursAt] using hocc)

theorem occursAt_decomp (pat s : List Char) (i : Nat) (h : occursAt pat s i) :
    s = s.take i ++ pat ++ s.drop (i + pat.length) := by
  unfold occursAt at h
  conv_lhs => rw [← List.take_append_drop i s]
  have hdrop : s.drop i = pat ++ s.drop (i + pat.length) := by
    conv_lhs => rw [← List.take_append_drop pat.length (s.drop i)]
    rw [h, List.drop_drop]
  conv_lhs => rw [hdrop]
  rw [List.append_assoc]

theorem foldl_over_messages {α : Type} (step : α → ToolCall → α) (msgs : List Message) (a : α) :
    msgs.foldl (fun acc msg => (msg.toolCalls.getD []).foldl step acc) a =
      ((msgs.map (fun m => m.toolCalls.getD [])).flatten).foldl step a := by
  induction msgs generalizing a with
  | nil => rfl
  | cons x xs ih =>
    simp only [List.foldl_cons, List.map_cons, List.flatten_cons, List.foldl_append]
    exact ih ((x.toolCalls.getD []).foldl step a)

theorem retry_foldl_some (l : List ToolCall) (n : Nat) (last : ToolCall) :
    (l.foldl retryStep (n, some last)).1 = n + specAdjacentRepeats ((last :: l).map sigPair) := by
  induction l generalizing n last with
  | nil => simp [specAdjacentRepeats]
  | cons c rest ih =>
    simp only [List.foldl_cons, retryStep]
    have hsig : (sigPair last = sigPair c) ↔
        (last.toolName = c.toolName ∧ last.parameters = c.parameters) := by
      simp [sigPair, Prod.ext_iff]
    by_cases h : last.toolName = c.toolName ∧ last.parameters = c.parameters
    · rw [if_pos h, ih]
      simp only [List.map_cons, specAdjacentRepeats, if_pos (hsig.mpr h)]
      omega
    · rw [if_neg h, ih]
      simp only [List.map_cons, specAdjacentRepeats, if_neg (fun hs => h (hsig.mp hs))]
      omega

theorem retry_foldl_none (l : List ToolCall) (n : Nat) :
    (l.foldl retryStep (n, none)).1 = n + specAdjacentRepeats (l.map sigPair) := by
  cases l with
  | nil => simp [specAdjacentRepeats]
  | cons c rest =>
    simp only [List.foldl_cons, retryStep]
    exact retry_foldl_some rest n c

theorem countRetries_eq_spec (conversation : ConversationHistory) :
    countRetries conversation =
      specAdjacentRepeats ((allToolCallsOf conversation).map sigPair) := by
  unfold countRetries allToolCallsOf
  rw [foldl_over_messages retryStep]
  rw [retry_foldl_none]
  omega

theorem dup_foldl (l : List ToolCall) (m : List (String × Nat)) (d : Nat) (seen : List String)
    (hm : ∀ s, 0 < (jsMapGet s m).getD 0 ↔ s ∈ seen) :
    (l.foldl dupStep (m, d)).2 = d + specRepeatsFrom seen (l.map toolCallSignature) := by
  induction l generalizing m d seen with
  | nil => simp [specRepeatsFrom]
  | cons c rest ih =>
    simp only [List.foldl_cons, dupStep]
    have hinv : ∀ s,
        0 < (jsMapGet s (jsMapSet (toolCallSignature c)
              ((jsMapGet (toolCallSignature c) m).getD 0 + 1) m)).getD 0 ↔
          s ∈ toolCallSignature c :: seen := by
      intro s
      by_cases hs : s = toolCallSignature c
      · subst hs
        rw [jsMapGet_set_self]
        simp
      · rw [jsMapGet_set_ne _ _ _ _ hs]
        simp [hm s, hs]
    by_cases hin : toolCallSignature c ∈ seen
    · have hcount : 0 < (jsMapGet (toolCallSignature c) m).getD 0 := (hm _).mpr hin
      rw [if_pos (by omega)]
      rw [ih _ _ _ hinv]
      simp only [List.map_cons, specRepeatsFrom, if_pos hin]
      omega
    · have hcount : ¬ 0 < (jsMapGet (toolCallSignature c) m).getD 0 :=
        fun hc => hin ((hm _).mp hc)
      rw [if_neg (by omega)]
      rw [ih _ _ _ hinv]
      simp only [List.map_cons, specRepeatsFrom, if_neg hin]
      omega

theorem countDuplicateToolCalls_eq_spec (conversation : ConversationHistory) :
    countDuplicateToolCalls conversation =
      specRepeatsFrom [] ((allToolCallsOf conversation).map toolCallSignature) := by
  unfold countDuplicateToolCalls allToolCallsOf
  rw [foldl_over_messages dupStep]
  rw [dup_foldl _ _ _ [] (by simp [jsMapGet])]
  omega

theorem normalizeScore_mem (v : ℚ) : 0 ≤ normalizeScore v ∧ normalizeScore v ≤ 10 :=
  ⟨le_min (by norm_num) (le_max_left 0 v), min_le_left _ _⟩

theorem correctnessEvaluate_mem (t : Test) (r : TestResult) (c : ConversationHistory)
    (m : RawMetrics) : 0 ≤ correctnessEvaluate t r c m ∧ correctnessEvaluate t r c m ≤ 10 := by
  unfold correctnessEvaluate
  exact normalizeScore_mem _

theorem speedEvaluate_mem (t : Test) (r : TestResult) (c : ConversationHistory)
    (m : RawMetrics) : 0 ≤ speedEvaluate t r c m ∧ speedEvaluate t r c m ≤ 10 := by
  unfold speedEvaluate
  simp only []
  split_ifs <;> first
    | exact normalizeScore_mem _
    | norm_num

theorem tokenEfficiencyEvaluate_mem (t : Test) (r : TestResult) (c : ConversationHistory)
    (m : RawMetrics) :
    0 ≤ tokenEfficiencyEvaluate t r c m ∧ tokenEfficiencyEvaluate t r c m ≤ 10 := by
  unfold tokenEfficiencyEvaluate
  exact normalizeScore_mem _

theorem codeQualityEvaluate_mem (t : Test) (r : TestResult) (c : ConversationHistory)
    (m : RawMetrics) : 0 ≤ codeQualityEvaluate t r c m ∧ codeQualityEvaluate t r c m ≤ 10 := by
  unfold codeQualityEvaluate
  exact normalizeScore_mem _

theorem placeholderEvaluate_mem (t : Test) (r : TestResult) (c : ConversationHistory)
    (m : RawMetrics) : 0 ≤ placeholderEvaluate t r c m ∧ placeholderEvaluate t r c m ≤ 10 := by
  unfold placeholderEvaluate
  exact normalizeScore_mem _

theorem defaultEvaluators_eq :
    defaultEvaluators =
      [("correctness", correctnessEvaluator), ("speed", speedEvaluator),
       ("tokenEfficiency", tokenEfficiencyEvaluator), ("codeQuality", codeQualityEvaluator),
       ("documentation",
        placeholderEvaluator "documentation" "Quality of explanations and comments"),
       ("security", placeholderEvaluator "security" "Security best practices"),
       ("instructionAdherence",
        placeholderEvaluator "instructionAdherence" "Following CLAUDE.md instructions"),
       ("consistency",
        placeholderEvaluator "consistency" "Consistent behavior across similar prompts"),
       ("errorRecovery",
        placeholderEvaluator "errorRecovery" "Ability to handle and recover from errors")] := by
  rfl

theorem defaultEvaluators_names :
    defaultEvaluators.map Prod.fst =
      ["correctness", "speed", "tokenEfficiency", "codeQuality", "documentation",
       "security", "instructionAdherence", "consistency", "errorRecovery"] := by
  rw [defaultEvaluators_eq]
  rfl

/-- C2: on any sandbox state, a write followed by a read of the same
logical path (any two spellings with the same normalized form) returns
exactly the written content. -/
theorem write_then_read (fs : VirtualFileSystem) (p1 p2 content : String) (t1 t2 : Nat)
    (h : VirtualFileSystem.normalizePath fs.workingDirectory p1 =
         VirtualFileSystem.normalizePath fs.workingDirectory p2) :
    (VirtualFileSystem.read (VirtualFileSystem.write fs p1 content t1).1 p2 t2).2 =
      some content := by
  unfold VirtualFileSystem.write VirtualFileSystem.read
  simp only [← h, Option.map_eq_some']
  exact ⟨_, jsMapGet_set_self _ _ _, rfl⟩

/-- Witness for C2 at a relative and an absolute spelling of one path. -/
theorem write_then_read_witness :
    (VirtualFileSystem.read
      (VirtualFileSystem.write (VirtualFileSystem.init "/workspace")
        "/workspace/notes.txt" "hello" 5).1 "notes.txt" 6).2 = some "hello" :=
  write_then_read _ _ _ _ _ _ (by decide)

/-- C6: after reset, listing the root returns the empty list and the
operation log is empty, whatever the prior state. -/
theorem reset_clears (fs : VirtualFileSystem) :
    VirtualFileSystem.listDirectory (VirtualFileSystem.reset fs) "/" = [] ∧
    VirtualFileSystem.getFileOperations (VirtualFileSystem.reset fs) = [] :=
  ⟨rfl, rfl⟩

/-- C9 counterexample: deleting a never-written path on a fresh sandbox
returns a failure flag, not success. -/
theorem delete_missing_not_success :
    (VirtualFileSystem.delete (VirtualFileSystem.init "/workspace") "/nope.txt" 0).2 = false := by
  decide

/-- C9 amended: delete reports success exactly when the normalized path
currently has an entry; on a never-written path the result is false. -/
theorem delete_success_iff_present (fs : VirtualFileSystem) (p : String) (now : Nat) :
    (VirtualFileSystem.delete fs p now).2 =
      (jsMapGet (VirtualFileSystem.normalizePath fs.workingDirectory p) fs.files).isSome := by
  unfold VirtualFileSystem.delete jsMapDelete
  simp only []
  rw [← any_key_eq_isSome]
  split_ifs with hc
  · exact hc.symm
  · exact (Bool.eq_false_iff.mpr hc).symm

theorem firstMatchIdx_eq_of (pat s : List Char) (i : Nat) (hocc : occursAt pat s i)
    (hmin : ∀ j, j < i → ¬ occursAt pat s j) : firstMatchIdx pat s = some i := by
  cases hfm : firstMatchIdx pat s with
  | none => exact absurd hocc (firstMatchIdx_none_not pat s hfm i)
  | some k =>
    rcases Nat.lt_trichotomy k i with hlt | heq | hgt
    · exact absurd (firstMatchIdx_some_occurs pat s k hfm) (hmin k hlt)
    · rw [heq]
    · exact absurd hocc (firstMatchIdx_some_least pat s k hfm i hgt)

theorem getSubstitution_no_dollar (matched preceding following repl : List Char)
    (h : ('$' : Char) ∉ repl) :
    getSubstitution matched preceding following repl = repl := by
  induction repl with
  | nil => rfl
  | cons c rest ih =>
    simp only [List.mem_cons, not_or] at h
    unfold getSubstitution
    rw [if_neg (fun hc => h.1 hc.symm)]
    rw [ih h.2]

/-- C3 amended: edit fails with the not-found result when the path has no
entry, fails with the fragment-not-found result when the old fragment
does not occur in the current content, and otherwise succeeds, replacing
exactly the first occurrence of the old fragment by the dollar-expanded
replacement text, which is the replacement itself whenever it contains no
dollar character, leaving the surrounding content unchanged. -/
theorem edit_spec (fs : VirtualFileSystem) (p oldContent newContent : String) (now : Nat) :
    (jsMapGet (VirtualFileSystem.normalizePath fs.workingDirectory p) fs.files = none →
      VirtualFileSystem.edit fs p oldContent newContent now =
        (fs, (false, "File not found"))) ∧
    (∀ file,
      jsMapGet (VirtualFileSystem.normalizePath fs.workingDirectory p) fs.files = some file →
      (∀ j, ¬ occursAt oldContent.data file.content.data j) →
      VirtualFileSystem.edit fs p oldContent newContent now =
        (fs, (false, "Old content not found in file"))) ∧
    (∀ file i,
      jsMapGet (VirtualFileSystem.normalizePath fs.workingDirectory p) fs.files = some file →
      occursAt oldContent.data file.content.data i →
      (∀ j, j < i → ¬ occursAt oldContent.data file.content.data j) →
      (VirtualFileSystem.edit fs p oldContent newContent now).2 =
          (true, "File edited successfully") ∧
      ∃ file2,
        jsMapGet (VirtualFileSystem.normalizePath fs.workingDirectory p)
            (VirtualFileSystem.edit fs p oldContent newContent now).1.files = some file2 ∧
        file.content.data =
          file.content.data.take i ++ oldContent.data ++
            file.content.data.drop (i + oldContent.length) ∧
        file2.content.data =
          file.content.data.take i ++
            getSubstitution oldContent.data (file.content.data.take i)
              (file.content.data.drop (i + oldContent.length)) newContent.data ++
            file.content.data.drop (i + oldContent.length) ∧
        (('$' : Char) ∉ newContent.data →
          file2.content.data =
            file.content.data.take i ++ newContent.data ++
              file.content.data.drop (i + oldContent.length))) := by
  refine ⟨?_, ?_, ?_⟩
  · intro hnone
    unfold VirtualFileSystem.edit
    simp only []
    rw [hnone]
  · intro file hfile hnot
    unfold VirtualFileSystem.edit
    simp only []
    rw [hfile]
    have hfm0 : firstMatchIdx oldContent.data file.content.data = none := by
      cases hfm : firstMatchIdx oldContent.data file.content.data with
      | none => rfl
      | some k => exact absurd (firstMatchIdx_some_occurs _ _ k hfm) (hnot k)
    simp only []
    rw [hfm0]
  · intro file i hfile hocc hmin
    unfold VirtualFileSystem.edit
    simp only []
    rw [hfile]
    simp only []
    rw [firstMatchIdx_eq_of _ _ i hocc hmin]
    simp only []
    refine ⟨trivial, ?_⟩
    refine ⟨_, jsMapGet_set_self _ _ _, ?_, rfl, ?_⟩
    · have hdec := occursAt_decomp _ _ _ hocc
      conv_lhs => rw [hdec]
      rfl
    · intro hnd
      show (String.mk (file.content.data.take i ++
          getSubstitution oldContent.data (file.content.data.take i)
            (file.content.data.drop (i + oldContent.length)) newContent.data ++
          file.content.data.drop (i + oldContent.length))).data = _
      rw [getSubstitution_no_dollar _ _ _ _ hnd]

theorem calculateKeywordMatch_nonneg (expected actual : List String) :
    0 ≤ calculateKeywordMatch expected actual := by
  unfold calculateKeywordMatch
  split_ifs
  · norm_num
  · positivity

/-- C4: the correctness evaluator returns exactly 0 whenever the response
is empty or contains the failure sentinel, whatever the error counts,
retry count and expected-behavior keywords. -/
theorem correctness_zero_on_sentinel (t : Test) (r : TestResult) (c : ConversationHistory)
    (m : RawMetrics)
    (h : r.response = "" ∨ ∃ j, occursAt "Test failed:".data r.response.data j) :
    correctnessEvaluate t r c m = 0 := by
  have hcond : r.response = "" ∨ jsIncludes r.response "Test failed:" = true := by
    rcases h with h | ⟨j, hj⟩
    · exact Or.inl h
    · refine Or.inr ?_
      unfold jsIncludes
      cases hfm : firstMatchIdx "Test failed:".data r.response.data with
      | none => exact absurd hj (firstMatchIdx_none_not _ _ hfm j)
      | some k => rfl
  unfold correctnessEvaluate
  simp only []
  rw [if_pos hcond]
  cases heb : t.expectedBehavior with
  | none =>
    simp [normalizeScore]
  | some eb =>
    have h0 : 0 ≤ calculateKeywordMatch (extractKeywords eb) (extractKeywords r.response) * 10 := by
      have := calculateKeywordMatch_nonneg (extractKeywords eb) (extractKeywords r.response)
      positivity
    simp only [min_eq_left h0]
    simp [normalizeScore]

/-- Witness for C4 at a concrete sentinel-carrying result. -/
theorem correctness_zero_on_sentinel_witness :
    correctnessEvaluate sampleTest
      { sampleResult with response := "Test failed: boom" } sampleConversation sampleMetrics = 0 :=
  correctness_zero_on_sentinel _ _ _ _ (Or.inr ⟨0, by decide⟩)

/-- Witness for C3: a successful edit replacing the first occurrence with
a dollar-free replacement, inserted literally. -/
theorem edit_spec_witness :
    (VirtualFileSystem.edit editFixture "/a.txt" "world" "there" 2).2 =
        (true, "File edited successfully") ∧
    ∃ file2,
      jsMapGet (VirtualFileSystem.normalizePath editFixture.workingDirectory "/a.txt")
          (VirtualFileSystem.edit editFixture "/a.txt" "world" "there" 2).1.files = some file2 ∧
      "hello world".data =
        "hello world".data.take 6 ++ "world".data ++
          "hello world".data.drop (6 + "world".length) ∧
      file2.content.data =
        "hello world".data.take 6 ++
          getSubstitution "world".data ("hello world".data.take 6)
            ("hello world".data.drop (6 + "world".length)) "there".data ++
          "hello world".data.drop (6 + "world".length) ∧
      (('$' : Char) ∉ "there".data →
        file2.content.data =
          "hello world".data.take 6 ++ "there".data ++
            "hello world".data.drop (6 + "world".length)) :=
  (edit_spec editFixture "/a.txt" "world" "there" 2).2.2
    { path := "/a.txt", content := "hello world", createdAt := 1, modifiedAt := 1,
      permissions := "rw-r--r--" }
    6 (by decide) (by decide) (by decide)

/-- C3 counterexample: a replacement string containing a dollar pattern
is not inserted literally.  Editing the content hello world, replacing
the fragment world by the three characters dollar ampersand bang, stores
the content hello world bang (the dollar ampersand expands to the matched
fragment), not the literal splice the original claim predicts. -/
theorem edit_dollar_replacement :
    ∃ file2,
      jsMapGet (VirtualFileSystem.normalizePath editFixture.workingDirectory "/a.txt")
          (VirtualFileSystem.edit editFixture "/a.txt" "world" "$&!" 2).1.files = some file2 ∧
      file2.content = "hello world!" ∧
      file2.content ≠
        ⟨"hello world".data.take 6 ++ "$&!".data ++
          "hello world".data.drop (6 + "world".length)⟩ :=
  ⟨{ path := "/a.txt", content := "hello world!", createdAt := 1, modifiedAt := 2,
     permissions := "rw-r--r--" }, by decide, by decide, by decide⟩

/-- C5: the retry count equals the number of transcript-wide adjacent
identical signature pairs, across message boundaries; the duplicate count
equals the number of signature occurrences beyond the first, adjacent or
not; and on a conversation with an identical non-adjacent repeat the
duplicate count rises while the retry count does not. -/
theorem retry_and_duplicate_counts :
    (∀ conversation : ConversationHistory,
      countRetries conversation =
        specAdjacentRepeats ((allToolCallsOf conversation).map sigPair)) ∧
    (∀ conversation : ConversationHistory,
      countDuplicateToolCalls conversation =
        specRepeatsFrom [] ((allToolCallsOf conversation).map toolCallSignature)) ∧
    (countRetries nonAdjacentConv = 0 ∧ countDuplicateToolCalls nonAdjacentConv = 1) ∧
    (countRetries crossBoundaryConv = 1 ∧ countDuplicateToolCalls crossBoundaryConv = 1) :=
  ⟨countRetries_eq_spec, countDuplicateToolCalls_eq_spec, by decide, by decide⟩

theorem isPrefOf_append_of (pat s r : List Char) (h : isPrefOf pat s = true) :
    isPrefOf pat (s ++ r) = true := by
  rw [isPrefOf_iff] at h ⊢
  rcases le_or_lt pat.length s.length with hle | hlt
  · rw [List.take_append_of_le_length hle, h]
  · exfalso
    have := congrArg List.length h
    simp at this
    omega

/-- C7: the suite run produces exactly one result per test, in order; a
test whose execution throws contributes the synthesized failed result,
whose response carries the failure sentinel and whose nine scores are all
zero, and does not disturb the remaining entries. -/
theorem runTestSuite_per_test (executeTest : Test → Except String TestResult)
    (tests : List Test) (testRunId : Nat) (now : Nat) :
    (runTestSuiteResults executeTest tests testRunId now).length = tests.length ∧
    (∀ i (h1 : i < tests.length)
       (h2 : i < (runTestSuiteResults executeTest tests testRunId now).length),
      (executeTest (tests.get ⟨i, h1⟩) =
        Except.ok ((runTestSuiteResults executeTest tests testRunId now).get ⟨i, h2⟩)) ∨
      (∃ e, executeTest (tests.get ⟨i, h1⟩) = Except.error e ∧
        (runTestSuiteResults executeTest tests testRunId now).get ⟨i, h2⟩ =
          createFailedResult (tests.get ⟨i, h1⟩) testRunId e now ∧
        strStartsWith
          ((runTestSuiteResults executeTest tests testRunId now).get ⟨i, h2⟩).response
          "Test failed:" = true ∧
        ((runTestSuiteResults executeTest tests testRunId now).get ⟨i, h2⟩).scores =
          ⟨0, 0, 0, 0, 0, 0, 0, 0, 0⟩)) := by
  constructor
  · simp [runTestSuiteResults]
  · intro i h1 h2
    have hget : (runTestSuiteResults executeTest tests testRunId now).get ⟨i, h2⟩ =
        runSuiteStep executeTest testRunId now (tests.get ⟨i, h1⟩) := by
      simp [runTestSuiteResults]
    cases hexec : executeTest (tests.get ⟨i, h1⟩) with
    | ok r =>
      left
      rw [hget]
      unfold runSuiteStep
      rw [hexec]
    | error e =>
      right
      refine ⟨e, rfl, ?_, ?_, ?_⟩
      · rw [hget]
        unfold runSuiteStep
        rw [hexec]
      · rw [hget]
        unfold runSuiteStep
        rw [hexec]
        unfold createFailedResult strStartsWith
        simp only []
        have : ("Test failed: " ++ e).data = "Test failed: ".data ++ e.data := by
          simp [String.data_append]
        rw [this]
        exact isPrefOf_append_of _ _ _ (by decide)
      · rw [hget]
        unfold runSuiteStep
        rw [hexec]
        rfl

/-- Witness for C7: a single-test suite whose execution throws. -/
theorem runTestSuite_per_test_witness :
    (runTestSuiteResults (fun _ => Except.error "boom") [sampleTest] 3 7).length = 1 ∧
    ((fun _ => (Except.error "boom" : Except String TestResult)) (([sampleTest].get
        ⟨0, by norm_num⟩ : Test)) =
      Except.ok ((runTestSuiteResults (fun _ => Except.error "boom") [sampleTest] 3 7).get
        ⟨0, by simp [runTestSuiteResults]⟩) ∨
      (∃ e, (fun _ => (Except.error "boom" : Except String TestResult)) (([sampleTest].get
          ⟨0, by norm_num⟩ : Test)) = Except.error e ∧
        (runTestSuiteResults (fun _ => Except.error "boom") [sampleTest] 3 7).get
            ⟨0, by simp [runTestSuiteResults]⟩ =
          createFailedResult ([sampleTest].get ⟨0, by norm_num⟩) 3 e 7 ∧
        strStartsWith
          ((runTestSuiteResults (fun _ => Except.error "boom") [sampleTest] 3 7).get
            ⟨0, by simp [runTestSuiteResults]⟩).response "Test failed:" = true ∧
        ((runTestSuiteResults (fun _ => Except.error "boom") [sampleTest] 3 7).get
            ⟨0, by simp [runTestSuiteResults]⟩).scores = ⟨0, 0, 0, 0, 0, 0, 0, 0, 0⟩)) := by
  have h := runTestSuite_per_test (fun _ => Except.error "boom") [sampleTest] 3 7
  exact ⟨h.1, h.2 0 (by norm_num) (by simp [runTestSuiteResults])⟩

/-- C8 counterexample: a concrete timed-out execution whose elapsed time
exceeds the configured timeout of 1000 ms and which carries the timeout
error event, yet whose TestResult stores the hard-coded correctness score
7, and whose response lacks the failure sentinel so that even the
correctness evaluator scores it 8, not 0. -/
theorem timeout_correctness_not_zero :
    (executeTestResult sampleTest 1 "" 0 (timeoutExecutionResult "" 1500) []
        2000).responseTimeMs = 1500 ∧
    1000 ≤ (executeTestResult sampleTest 1 "" 0 (timeoutExecutionResult "" 1500) []
        2000).responseTimeMs ∧
    (executeTestResult sampleTest 1 "" 0 (timeoutExecutionResult "" 1500) []
        2000).metricsRaw.errorsEncountered =
      [{ type := "execution_error", message := "Process timed out", stack := none,
         timestamp := 2000, recovered := false }] ∧
    (executeTestResult sampleTest 1 "" 0 (timeoutExecutionResult "" 1500) []
        2000).scores.correctness = 7 ∧
    ¬ (executeTestResult sampleTest 1 "" 0 (timeoutExecutionResult "" 1500) []
        2000).scores.correctness = 0 ∧
    correctnessEvaluate sampleTest
      (executeTestResult sampleTest 1 "" 0 (timeoutExecutionResult "" 1500) [] 2000)
      (executeTestResult sampleTest 1 "" 0 (timeoutExecutionResult "" 1500) [] 2000).conversation
      (executeTestResult sampleTest 1 "" 0 (timeoutExecutionResult "" 1500) [] 2000).metricsRaw
      = 8 := by
  have h7 : (executeTestResult sampleTest 1 "" 0 (timeoutExecutionResult "" 1500) []
      2000).scores.correctness = 7 := rfl
  refine ⟨rfl, by decide, rfl, h7, by rw [h7]; norm_num, ?_⟩
  have hresp : (executeTestResult sampleTest 1 "" 0 (timeoutExecutionResult "" 1500) []
      2000).response = "" ++ "\n[TIMEOUT]" := rfl
  have herr : (executeTestResult sampleTest 1 "" 0 (timeoutExecutionResult "" 1500) []
      2000).metricsRaw.errorsEncountered =
      [{ type := "execution_error", message := "Process timed out", stack := none,
         timestamp := 2000, recovered := false }] := rfl
  have hretry : (executeTestResult sampleTest 1 "" 0 (timeoutExecutionResult "" 1500) []
      2000).metricsRaw.retryAttempts = 0 := rfl
  unfold correctnessEvaluate
  simp only []
  rw [hresp, herr, hretry]
  rw [if_neg (by decide : ¬ ("" ++ "\n[TIMEOUT]" = "" ∨
    jsIncludes ("" ++ "\n[TIMEOUT]") "Test failed:" = true))]
  have hbeh : sampleTest.expectedBehavior = none := rfl
  rw [hbeh]
  simp only [List.filter, List.length]
  norm_num [normalizeScore]

/-- C8 amended: a timed-out execution yields a TestResult whose response
time is at least the configured timeout (the timer fires no earlier than
scheduled), which carries an execution_error event with the timed-out
message; its stored correctness score is the hard-coded placeholder 7. -/
theorem timeout_result_spec (test : Test) (testRunId : Nat) (claudeMdContent : String)
    (startTime : Nat) (outputSoFar : String) (elapsed timeoutMs : Nat)
    (workspaceFiles : List String) (now : Nat) (h : timeoutMs ≤ elapsed) :
    timeoutMs ≤ (executeTestResult test testRunId claudeMdContent startTime
        (timeoutExecutionResult outputSoFar elapsed) workspaceFiles now).responseTimeMs ∧
    (∃ e ∈ (executeTestResult test testRunId claudeMdContent startTime
        (timeoutExecutionResult outputSoFar elapsed) workspaceFiles now).metricsRaw.errorsEncountered,
      e.type = "execution_error" ∧ e.message = "Process timed out") ∧
    (executeTestResult test testRunId claudeMdContent startTime
        (timeoutExecutionResult outputSoFar elapsed) workspaceFiles now).scores.correctness = 7 := by
  refine ⟨h, ?_, rfl⟩
  refine ⟨{ type := "execution_error", message := "Process timed out", stack := none,
            timestamp := now, recovered := false }, ?_, rfl, rfl⟩
  unfold executeTestResult collectMetrics timeoutExecutionResult
  simp

/-- Witness for C8 amended at a concrete timed-out execution. -/
theorem timeout_result_spec_witness :
    700 ≤ (executeTestResult sampleTest 2 "" 0 (timeoutExecutionResult "partial" 800) []
        900).responseTimeMs ∧
    (∃ e ∈ (executeTestResult sampleTest 2 "" 0 (timeoutExecutionResult "partial" 800) []
        900).metricsRaw.errorsEncountered,
      e.type = "execution_error" ∧ e.message = "Process timed out") ∧
    (executeTestResult sampleTest 2 "" 0 (timeoutExecutionResult "partial" 800) []
        900).scores.correctness = 7 :=
  timeout_result_spec sampleTest 2 "" 0 "partial" 800 700 [] 900 (by norm_num)

/-- C10: every RawMetrics built by collectMetrics has an empty tool-call
list and a zero retry count, and every error event it carries is an
execution_error, never a tool_error, so neither the correctness retry
penalty nor the tool-error mapping can be driven from this path. -/
theorem collectMetrics_constants (workspaceFiles : List String)
    (executionResult : ExecutionResult) (now : Nat) :
    (collectMetrics workspaceFiles executionResult now).allToolCalls = [] ∧
    (collectMetrics workspaceFiles executionResult now).retryAttempts = 0 ∧
    ∀ e ∈ (collectMetrics workspaceFiles executionResult now).errorsEncountered,
      e.type = "execution_error" := by
  refine ⟨rfl, rfl, ?_⟩
  intro e he
  unfold collectMetrics at he
  simp only [] at he
  split at he
  · simp at he
    rw [he]
  · simp at he

/-- Witness for C10 at a concrete failing execution result. -/
theorem collectMetrics_constants_witness :
    (collectMetrics ["/ws/CLAUDE.md", "/ws/out.txt"]
        { output := "", exitCode := 1, duration := 5, error := none } 0).retryAttempts = 0 ∧
    ({ type := "execution_error", message := "Process exited with non-zero code", stack := none,
       timestamp := 0, recovered := false : ErrorEvent }).type = "execution_error" := by
  have h := collectMetrics_constants ["/ws/CLAUDE.md", "/ws/out.txt"]
    { output := "", exitCode := 1, duration := 5, error := none } 0
  exact ⟨h.2.1, h.2.2 _ (by decide)⟩

/-- C1: on the default registry, evaluateAll produces the nine registered
metric names exactly once each, every value lies between 0 and 10, and in
general each entry is determined by its own unit alone, a throwing unit
contributing the fixed neutral default 5 without touching the others. -/
theorem evaluateAll_complete (t : Test) (r : TestResult) :
    ((evaluateAll defaultEvaluators t r).map Prod.fst =
      ["correctness", "speed", "tokenEfficiency", "codeQuality", "documentation",
       "security", "instructionAdherence", "consistency", "errorRecovery"] ∧
     ((evaluateAll defaultEvaluators t r).map Prod.fst).Nodup) ∧
    (∀ p ∈ evaluateAll defaultEvaluators t r, 0 ≤ p.2 ∧ p.2 ≤ 10) ∧
    (∀ (registry : List (String × Evaluator)) (u : Test) (s : TestResult) (j : Nat)
       (h1 : j < registry.length) (h2 : j < (evaluateAll registry u s).length),
      (evaluateAll registry u s).get ⟨j, h2⟩ =
        ((registry.get ⟨j, h1⟩).1,
         match (registry.get ⟨j, h1⟩).2.evaluate u s s.conversation s.metricsRaw with
         | Except.ok v => v
         | Except.error _ => 5)) := by
  have hnames : (evaluateAll defaultEvaluators t r).map Prod.fst =
      ["correctness", "speed", "tokenEfficiency", "codeQuality", "documentation",
       "security", "instructionAdherence", "consistency", "errorRecovery"] := by
    rw [defaultEvaluators_eq]
    rfl
  refine ⟨⟨hnames, ?_⟩, ?_, ?_⟩
  · rw [hnames]
    decide
  · intro p hp
    rw [defaultEvaluators_eq] at hp
    unfold evaluateAll at hp
    simp only [List.map_cons, List.map_nil, List.mem_cons, List.not_mem_nil, or_false,
      correctnessEvaluator, speedEvaluator, tokenEfficiencyEvaluator, codeQualityEvaluator,
      placeholderEvaluator] at hp
    rcases hp with hp | hp | hp | hp | hp | hp | hp | hp | hp <;> subst hp
    · exact correctnessEvaluate_mem t r r.conversation r.metricsRaw
    · exact speedEvaluate_mem t r r.conversation r.metricsRaw
    · exact tokenEfficiencyEvaluate_mem t r r.conversation r.metricsRaw
    · exact codeQualityEvaluate_mem t r r.conversation r.metricsRaw
    · exact placeholderEvaluate_mem t r r.conversation r.metricsRaw
    · exact placeholderEvaluate_mem t r r.conversation r.metricsRaw
    · exact placeholderEvaluate_mem t r r.conversation r.metricsRaw
    · exact placeholderEvaluate_mem t r r.conversation r.metricsRaw
    · exact placeholderEvaluate_mem t r r.conversation r.metricsRaw
  · intro registry u s j h1 h2
    unfold evaluateAll
    simp only [List.get_eq_getElem, List.getElem_map]

/-- Witness for C1: a concrete in-range entry of the default pipeline and
the neutral default produced by a throwing unit. -/
theorem evaluateAll_complete_witness :
    (0 ≤ ((evaluateAll defaultEvaluators sampleTest sampleResult).get
          ⟨0, by simp [evaluateAll, defaultEvaluators_eq]⟩).2 ∧
      ((evaluateAll defaultEvaluators sampleTest sampleResult).get
          ⟨0, by simp [evaluateAll, defaultEvaluators_eq]⟩).2 ≤ 10) ∧
    (evaluateAll [("boom", failingEvaluator)] sampleTest sampleResult).get
        ⟨0, by simp [evaluateAll]⟩ = ("boom", 5) := by
  obtain ⟨-, hb, hc⟩ := evaluateAll_complete sampleTest sampleResult
  constructor
  · exact hb _ (List.get_mem _ _ _)
  · have h := hc [("boom", failingEvaluator)] sampleTest sampleResult 0 (by norm_num)
      (by simp [evaluateAll])
    simpa [failingEvaluator] using h
